import Mathlib

/-!
Verification development for the LocalLeads lead-generation pipeline.

The Python sources keep leads as dictionaries mapping string keys to JSON-like
values.  We embed a lead as an insertion-ordered association list
(`Dict := List (String × Val)`), with `Dict.get?` and `Dict.set` mirroring
Python `dict.get` / `dict[k] = v` semantics (overwrite in place, append new
keys at the end).  External effects (the DuckDuckGo search, the generative
call, `json.loads`) are modelled as environment parameters, so every function
of the repository becomes a pure total Lean function of the environment.
-/

/-- A JSON-like value as stored in a Python lead dictionary.  Nested objects
never occur in the pipeline's own dictionaries, so object-shaped decode
results are kept separate (see `Jres`). -/
inductive Val where
  | str (s : String)
  | num (q : Rat)
  | vlist (l : List Val)
  | vnone
deriving Repr

/-- The result of a successful `json.loads`: either a JSON object (whose
entries can be merged into a lead dict) or any non-object JSON value
(on which the code's `.items()` / `.get` access raises). -/
inductive Jres where
  | obj (entries : List (String × Val))
  | nonObj (v : Val)

/-- A Python dictionary with string keys, in insertion order. -/
abbrev Dict := List (String × Val)

namespace Dict

/-- `d.get(k)` / `d.get(k, None)`: the value of the first (only) entry with
key `k`. -/
def get? (d : Dict) (k : String) : Option Val :=
  (d.find? (fun p => p.1 == k)).map (·.2)

/-- `d[k] = v`: overwrite the entry in place when the key is present,
append it otherwise (CPython dicts preserve insertion order). -/
def set (d : Dict) (k : String) (v : Val) : Dict :=
  match d with
  | [] => [(k, v)]
  | p :: rest => if p.1 == k then (k, v) :: rest else p :: set rest k v

/-- `d.get(k, dflt)` read as a string; the pipeline only stores strings in
the fields read this way. -/
def getStr (d : Dict) (k : String) (dflt : String) : String :=
  match d.get? k with
  | some (.str s) => s
  | _ => dflt

/-- `d.get(k, dflt)` read as a number; the pipeline only stores numbers in
the fields read this way. -/
def getNum (d : Dict) (k : String) (dflt : Rat) : Rat :=
  match d.get? k with
  | some (.num q) => q
  | _ => dflt

theorem get?_nil (k : String) : Dict.get? [] k = none := rfl

theorem get?_cons (p : String × Val) (d : Dict) (k : String) :
    Dict.get? (p :: d) k = if p.1 == k then some p.2 else Dict.get? d k := by
  by_cases h : p.1 = k
  · simp [Dict.get?, List.find?, h]
  · simp only [Dict.get?, List.find?]
    rw [show (p.1 == k) = false by simpa using h]
    simp

theorem get?_set_self (d : Dict) (k : String) (v : Val) :
    (d.set k v).get? k = some v := by
  induction d with
  | nil => simp [Dict.set, get?_cons]
  | cons p d ih =>
      by_cases hp : p.1 = k
      · simp [Dict.set, hp, get?_cons]
      · have hb : (p.1 == k) = false := by simpa using hp
        simp [Dict.set, hb, get?_cons, ih]

theorem get?_set_ne (d : Dict) (k k' : String) (v : Val) (h : k ≠ k') :
    (d.set k' v).get? k = d.get? k := by
  induction d with
  | nil =>
      have hk' : (k' == k) = false := by simpa using Ne.symm h
      simp [Dict.set, get?_cons, hk']
  | cons p d ih =>
      by_cases hp : p.1 = k'
      · have hb : (p.1 == k') = true := by simpa using hp
        have hk : (p.1 == k) = false := by rw [hp]; simpa using Ne.symm h
        have hk' : (k' == k) = false := by simpa using Ne.symm h
        simp [Dict.set, hb, get?_cons, hk, hk']
      · have hb : (p.1 == k') = false := by simpa using hp
        simp [Dict.set, hb, get?_cons, ih]

theorem isSome_get?_iff (d : Dict) (k : String) :
    ((d.get? k).isSome = true) ↔ k ∈ d.map Prod.fst := by
  induction d with
  | nil => simp [get?_nil]
  | cons p rest ih =>
      rw [get?_cons]
      by_cases h : p.1 = k
      · simp [h]
      · have hb : (p.1 == k) = false := by simpa using h
        have hk : ¬ k = p.1 := fun hh => h hh.symm
        simp [hb, ih, hk]

theorem isSome_get?_set (d : Dict) (k k' : String) (v : Val) :
    ((d.set k' v).get? k).isSome = true ↔ k = k' ∨ (d.get? k).isSome = true := by
  by_cases h : k = k'
  · subst h; simp [get?_set_self]
  · rw [get?_set_ne d k k' v h]
    simp [h]

end Dict

/-- Python truthiness of an optional dictionary value: absent keys, `None`,
empty strings and empty lists are falsy. -/
def truthy : Option Val → Bool
  | some (.str s) => !(s == "")
  | some (.num q) => !(q == 0)
  | some (.vlist l) => !l.isEmpty
  | some .vnone => false
  | none => false

/-!
The Lean standard library's `String.splitOn` / `trim` / `replace` are
defined by well-founded recursion and do not reduce definitionally, so we
embed the Python string methods the sources use as structurally recursive
functions on character lists (fuel-indexed, with fuel = input length, which
is always sufficient because each step consumes at least one character).
-/

/-- Whether `pat` is a prefix of `l`. -/
def isPrefixCh : List Char → List Char → Bool
  | [], _ => true
  | _ :: _, [] => false
  | a :: as, b :: bs => a == b && isPrefixCh as bs

/-- Worker for `pySplit`: scan left to right, cutting at each
(non-overlapping) occurrence of `sep`. -/
def pySplitGo (sep : List Char) : Nat → List Char → List Char → List (List Char)
  | 0, l, cur => [cur ++ l]
  | _, [], cur => [cur]
  | fuel + 1, c :: rest, cur =>
      if isPrefixCh sep (c :: rest) then
        cur :: pySplitGo sep fuel (List.drop (sep.length - 1) rest) []
      else
        pySplitGo sep fuel rest (cur ++ [c])

/-- Python `s.split(sep)` for a non-empty separator. -/
def pySplit (s sep : String) : List String :=
  (pySplitGo sep.toList (s.toList.length + 1) s.toList []).map String.mk

/-- Worker for `pyReplace`. -/
def pyReplaceGo (old new : List Char) : Nat → List Char → List Char
  | 0, l => l
  | _, [] => []
  | fuel + 1, c :: rest =>
      if isPrefixCh old (c :: rest) then
        new ++ pyReplaceGo old new fuel (List.drop (old.length - 1) rest)
      else
        c :: pyReplaceGo old new fuel rest

/-- Python `s.replace(old, new)` for a non-empty `old`. -/
def pyReplace (s old new : String) : String :=
  String.mk (pyReplaceGo old.toList new.toList (s.toList.length + 1) s.toList)

/-- ASCII whitespace as stripped by Python `str.strip()`. -/
def isSpaceCh (c : Char) : Bool :=
  c == ' ' || c == '\t' || c == '\n' || c == '\r' || c == '\x0b' || c == '\x0c'

/-- Python `s.strip()`. -/
def pyStrip (s : String) : String :=
  String.mk (((s.toList.dropWhile isSpaceCh).reverse.dropWhile isSpaceCh).reverse)

/-- Python's `pat in s` substring test (for non-empty `pat`):
`s.split(pat)` has more than one part exactly when `pat` occurs in `s`. -/
def strContains (s pat : String) : Bool :=
  (pySplit s pat).length > 1

/-- The character `{` (written numerically to keep brace characters out of
the source text). -/
def lbrace : Char := Char.ofNat 123

/-- The character `}`. -/
def rbrace : Char := Char.ofNat 125

/-- Index of the first occurrence of `c` (Python `str.find`, `none` = `-1`). -/
def charIdxFirst (c : Char) (l : List Char) : Option Nat :=
  l.findIdx? (· = c)

/-- Index of the last occurrence of `c` (Python `str.rfind`, `none` = `-1`). -/
def charIdxLast (c : Char) (l : List Char) : Option Nat :=
  match l.reverse.findIdx? (· = c) with
  | some i => some (l.length - 1 - i)
  | none => none

/-- `gem_gemini_enrichment.py` lines 107-111: locate the JSON block of a
response, `response_text[json_start:json_end]` with
`json_start = text.find(chr(123))`, `json_end = text.rfind(chr(125)) + 1`,
guarded by `json_start != -1 and json_end > json_start`. -/
def jsonSlice (text : String) : Option String :=
  let cs := text.toList
  match charIdxFirst lbrace cs, charIdxLast rbrace cs with
  | some json_start, some lastIdx =>
      let json_end := lastIdx + 1
      if json_start < json_end then
        some (String.mk ((cs.drop json_start).take (json_end - json_start)))
      else none
  | _, _ => none

/-!
## Stable descending sort

Both orchestrators use Python's `sorted(..., key=..., reverse=True)`, a
stable sort (records with equal keys keep their original relative order).
A stable sort by a fixed key is extensionally unique, so we embed it as the
stable insertion sort below.
-/

/-- Insert `x` (originally positioned before every element of the list)
into a descending-sorted list, keeping it in front of equal keys. -/
def stableInsertDesc (key : α → Rat) (x : α) : List α → List α
  | [] => [x]
  | y :: ys => if key x < key y then y :: stableInsertDesc key x ys else x :: y :: ys

/-- Python's `sorted(l, key=key, reverse=True)`: stable descending sort. -/
def stableSortDesc (key : α → Rat) : List α → List α
  | [] => []
  | x :: xs => stableInsertDesc key x (stableSortDesc key xs)

theorem stableInsertDesc_perm (key : α → Rat) (x : α) (l : List α) :
    (stableInsertDesc key x l).Perm (x :: l) := by
  induction l with
  | nil => exact List.Perm.refl _
  | cons y ys ih =>
      by_cases h : key x < key y
      · simp only [stableInsertDesc, if_pos h]
        exact (ih.cons y).trans (List.Perm.swap x y ys)
      · simp only [stableInsertDesc, if_neg h]
        exact List.Perm.refl _

theorem stableSortDesc_perm (key : α → Rat) (l : List α) :
    (stableSortDesc key l).Perm l := by
  induction l with
  | nil => exact List.Perm.refl _
  | cons x xs ih =>
      exact (stableInsertDesc_perm key x (stableSortDesc key xs)).trans (ih.cons x)

theorem length_stableSortDesc (key : α → Rat) (l : List α) :
    (stableSortDesc key l).length = l.length :=
  (stableSortDesc_perm key l).length_eq

theorem mem_stableSortDesc (key : α → Rat) (l : List α) (x : α) :
    x ∈ stableSortDesc key l ↔ x ∈ l :=
  (stableSortDesc_perm key l).mem_iff

theorem mem_stableInsertDesc (key : α → Rat) (x y : α) (l : List α) :
    y ∈ stableInsertDesc key x l ↔ y = x ∨ y ∈ l := by
  rw [(stableInsertDesc_perm key x l).mem_iff]
  simp

theorem stableInsertDesc_sorted (key : α → Rat) (x : α) (l : List α)
    (h : l.Pairwise (fun a b => key b ≤ key a)) :
    (stableInsertDesc key x l).Pairwise (fun a b => key b ≤ key a) := by
  induction l with
  | nil => simp [stableInsertDesc]
  | cons y ys ih =>
      rw [List.pairwise_cons] at h
      by_cases hxy : key x < key y
      · simp only [stableInsertDesc, if_pos hxy]
        rw [List.pairwise_cons]
        refine ⟨fun z hz => ?_, ih h.2⟩
        rcases (mem_stableInsertDesc key x z ys).mp hz with rfl | hz
        · exact le_of_lt hxy
        · exact h.1 z hz
      · simp only [stableInsertDesc, if_neg hxy]
        rw [List.pairwise_cons]
        refine ⟨fun z hz => ?_, List.Pairwise.cons h.1 h.2⟩
        rcases List.mem_cons.mp hz with rfl | hz
        · exact le_of_not_lt hxy
        · exact le_trans (h.1 z hz) (le_of_not_lt hxy)

theorem stableSortDesc_sorted (key : α → Rat) (l : List α) :
    (stableSortDesc key l).Pairwise (fun a b => key b ≤ key a) := by
  induction l with
  | nil => simp [stableSortDesc]
  | cons x xs ih => exact stableInsertDesc_sorted key x _ ih

theorem filter_stableInsertDesc_eq (key : α → Rat) (s : Rat) (x : α) (l : List α)
    (hx : key x = s) :
    (stableInsertDesc key x l).filter (fun z => decide (key z = s)) =
      x :: l.filter (fun z => decide (key z = s)) := by
  induction l with
  | nil => simp [stableInsertDesc, hx]
  | cons y ys ih =>
      by_cases hxy : key x < key y
      · have hy : ¬ key y = s := fun hh => by rw [hx, hh] at hxy; exact lt_irrefl s hxy
        simp only [stableInsertDesc, if_pos hxy, List.filter_cons, decide_eq_true_eq]
        rw [if_neg hy, ih, if_neg hy]
      · simp only [stableInsertDesc, if_neg hxy, List.filter_cons, decide_eq_true_eq]
        rw [if_pos hx]

theorem filter_stableInsertDesc_ne (key : α → Rat) (s : Rat) (x : α) (l : List α)
    (hx : ¬ key x = s) :
    (stableInsertDesc key x l).filter (fun z => decide (key z = s)) =
      l.filter (fun z => decide (key z = s)) := by
  induction l with
  | nil => simp [stableInsertDesc, hx]
  | cons y ys ih =>
      by_cases hxy : key x < key y
      · simp only [stableInsertDesc, if_pos hxy, List.filter_cons]
        by_cases hy : key y = s
        · simp [hy, ih]
        · simp [hy, ih]
      · simp [stableInsertDesc, if_neg hxy, List.filter_cons, hx]

/-- Stability: for every key value, the records carrying that key value
appear in the sorted output in their original relative order. -/
theorem stableSortDesc_stable (key : α → Rat) (l : List α) (s : Rat) :
    (stableSortDesc key l).filter (fun z => decide (key z = s)) =
      l.filter (fun z => decide (key z = s)) := by
  induction l with
  | nil => rfl
  | cons x xs ih =>
      by_cases hx : key x = s
      · rw [show stableSortDesc key (x :: xs) = stableInsertDesc key x (stableSortDesc key xs)
          from rfl, filter_stableInsertDesc_eq key s x _ hx, ih, List.filter_cons,
          if_pos (by simpa using hx)]
      · rw [show stableSortDesc key (x :: xs) = stableInsertDesc key x (stableSortDesc key xs)
          from rfl, filter_stableInsertDesc_ne key s x _ hx, ih, List.filter_cons,
          if_neg (by simpa using hx)]

/-!
## `google_maps_client.py` — lead fetching and scoring (main variant)

External HTTP calls (geocode, nearby search, place details) are black boxes;
we embed the per-business processing loop of `get_business_leads`
(lines 106-147), which consumes the raw search results and an oracle for
`get_place_details`.
-/

/-- A raw nearby-search result as read by `get_business_leads`:
only the fields the loop accesses.  `Option` marks fields read through
`dict.get` with a default. -/
structure RawPlace where
  place_id : String
  name : String
  vicinity : String
  lat : Rat
  lng : Rat
  rating : Option Rat
  reviews : Option Nat
  types : List String
  photos : List String

/-- A `get_place_details` result as read by `get_business_leads`. -/
structure RawDetails where
  formatted_address : Option String
  formatted_phone_number : Option String
  website : Option String
  opening_hours_weekday_text : List String

/-- Loop body of `get_business_leads` (google_maps_client.py lines 106-146):
build the base record, merge the optional detail fields, compute the
additive lead score, and attach it. -/
def processBusiness (business : RawPlace) (details : Option RawDetails) : Dict :=
  let business_data : Dict :=
    [("place_id", .str business.place_id),
     ("name", .str business.name),
     ("address", .str business.vicinity),
     ("lat", .num business.lat),
     ("lng", .num business.lng),
     ("rating", .num (business.rating.getD 0)),
     ("reviews", .num (business.reviews.getD 0)),
     ("types", .vlist (business.types.map Val.str)),
     ("photos", .vlist (business.photos.map Val.str))]
  let business_data : Dict :=
    match details with
    | some d =>
        ((((business_data.set "full_address"
            (.str (d.formatted_address.getD business.vicinity))).set "phone"
            (.str (d.formatted_phone_number.getD ""))).set "website"
            (.str (d.website.getD ""))).set "opening_hours"
            (.vlist (d.opening_hours_weekday_text.map Val.str)))
    | none => business_data
  let lead_score : Rat :=
    50 + (if (4.5 : Rat) ≤ business_data.getNum "rating" 0 then 10 else 0)
       + (if (200 : Rat) ≤ business_data.getNum "reviews" 0 then 10 else 0)
       + (if truthy (business_data.get? "website") then 10 else 0)
       + (if truthy (business_data.get? "phone") then 10 else 0)
  business_data.set "lead_score" (.num lead_score)

/-- The detail-fetch-and-process loop of `get_business_leads`: one output
record per raw search result (a failed detail fetch — the oracle returning
`none`, i.e. `get_place_details` returning `{}` — only skips the detail
merge, never the lead). -/
def get_business_leads_process (places : List RawPlace)
    (details_of : String → Option RawDetails) : List Dict :=
  places.map (fun business => processBusiness business (details_of business.place_id))

/-!
## `gemini_client.py` — enrichment client and orchestrator (main variant)
-/

/-- Environment for one `enrich_business_data` call: outcomes of
`setup_gemini`, the DuckDuckGo search request, `model.generate_content`
(`.error` covers request exceptions and safety blocks, both of which raise
out of `response.text`), and `json.loads` (`none` = `JSONDecodeError`). -/
structure GEnv where
  setup : Except Unit Unit
  duckSearch : Except Unit (List String)
  gen : Except Unit String
  loads : String → Option Jres

/-- Fallback context of `search_business_info` (lines 79-103): one canned
industry snippet chosen by keyword, plus a location snippet. -/
def searchFallback (business_name location : String) : List String :=
  let business_type_string := business_name.toLower ++ " " ++ location.toLower
  let first :=
    if ["restaurant", "cafe", "bar", "grill"].any
        (fun k => strContains business_type_string k) then
      "Title: Food Service Industry Overview\nSnippet: ...\nURL: example.com/restaurant-industry"
    else if ["hotel", "inn", "motel"].any (fun k => strContains business_type_string k) then
      "Title: Hospitality Industry Trends\nSnippet: ...\nURL: example.com/hotel-industry"
    else if ["retail", "shop", "store"].any (fun k => strContains business_type_string k) then
      "Title: Retail Business Challenges\nSnippet: ...\nURL: example.com/retail-business"
    else if ["salon", "spa", "beauty"].any (fun k => strContains business_type_string k) then
      "Title: Beauty Industry Insights\nSnippet: ...\nURL: example.com/beauty-industry"
    else if ["dental", "dentist"].any (fun k => strContains business_type_string k) then
      "Title: Dental Practice Management\nSnippet: ...\nURL: example.com/dental-practice"
    else if ["gym", "fitness"].any (fun k => strContains business_type_string k) then
      "Title: Fitness Center Operations\nSnippet: ...\nURL: example.com/fitness-business"
    else
      "Title: Small Business Operations\nSnippet: ...\nURL: example.com/small-business"
  [first,
   "Title: Business Types in " ++ location ++ "\nSnippet: ...\nURL: example.com/local-business"]

/-- `search_business_info` (lines 23-103): the primary search is attempted;
on an exception, or when it yields no formatted results, the canned fallback
context is used.  The fallback body cannot raise, so its own
`except` branch (line 102) is dead and the function never raises. -/
def search_business_info (env : GEnv) (business_name location : String) : List String :=
  match env.duckSearch with
  | .ok formatted_results =>
      if formatted_results.isEmpty then searchFallback business_name location
      else formatted_results
  | .error _ => searchFallback business_name location

/-- `', '.join(business.get('types', []))` with the `isinstance` guard
(lines 168, 114): join a list value, pass a string through, default `""`. -/
def typesJoin (business : Dict) : String :=
  match business.get? "types" with
  | some (.vlist l) =>
      String.intercalate ", " (l.map (fun v => match v with | .str s => s | _ => ""))
  | some (.str s) => s
  | _ => ""

/-- The `except` branch of the outer `try` (lines 179-189): every failure of
setup or of the generative call downgrades to these six defaults. -/
def outerDefaults (business : Dict) (business_name location : String) : Dict :=
  (((((business.set "description"
      (.str (business_name ++ " operates in " ++ location ++ ". Limited info available."))).set
      "company_size" (.str "Unknown")).set
      "decision_makers" (.str "Owner, General Manager")).set
      "pain_points" (.str "Unknown")).set
      "recommended_approach" (.str "Exploratory outreach")).set
      "outreach_template"
      (.str ("Hello, I recently discovered " ++ business_name ++
        ". I\x27d like to learn more about your business..."))

/-- The `except` branch of the inner parsing `try` (lines 166-177): any
parse failure fills all six fields with contextual defaults. -/
def innerDefaults (business : Dict) (business_name location : String) : Dict :=
  let business_types := typesJoin business
  (((((business.set "description"
      (.str (business_name ++ " is a " ++ business_types ++ " business located in " ++
        location ++ "."))).set
      "company_size" (.str "Small to Medium")).set
      "decision_makers" (.str "Owner, General Manager, Operations Director")).set
      "pain_points" (.str "Customer acquisition, operational efficiency, technology adoption")).set
      "recommended_approach"
      (.str "Direct outreach highlighting specific value for their business type")).set
      "outreach_template"
      (.str ("Hello, I recently came across " ++ business_name ++
        " and was impressed by your services..."))

/-- Lines 148-157: extract the JSON candidate from a (stripped) response by
splitting on markdown code fences, then normalize newlines and whitespace. -/
def mainJsonText (response_text : String) : String :=
  let json_text :=
    if strContains response_text "```json" then
      (pySplit ((pySplit response_text "```json").getD 1 "") "```").getD 0 ""
    else if strContains response_text "```" then
      (pySplit response_text "```").getD 1 ""
    else response_text
  pyStrip (pyReplace (pyReplace json_text "\n" " ") "\r" "")

/-- Lines 159-163: `json.loads` with a single-quote-replacement retry on
`JSONDecodeError`.  `some entries` = a JSON object was decoded; any other
outcome (decode failure twice, or a non-object on whose `.items()` the code
raises) is `none` and lands in the inner `except` branch. -/
def decodeWithRetry (loads : String → Option Jres) (json_text : String) :
    Option (List (String × Val)) :=
  match loads json_text with
  | some (.obj entries) => some entries
  | some (.nonObj _) => none
  | none =>
      match loads (pyReplace json_text "\x27" "\"") with
      | some (.obj entries) => some entries
      | _ => none

/-- Lines 164-165: `for key, value in enriched_data.items(): business[key] = value`
— every decoded key is written onto the lead, with no validation. -/
def mergeEntries (business : Dict) (entries : List (String × Val)) : Dict :=
  entries.foldl (fun b kv => b.set kv.1 kv.2) business

/-- `business.get("full_address", business.get("address", ""))` (line 109);
the address fields of pipeline leads are strings. -/
def businessAddressOf (business : Dict) : String :=
  match business.get? "full_address" with
  | some (.str s) => s
  | _ => business.getStr "address" ""

/-- Line 110: `business_address.split(",")[-2].strip()` when the address has
more than one comma-separated part, else `""`. -/
def locationOf (business_address : String) : String :=
  let parts := pySplit business_address ","
  if parts.length > 1 then pyStrip (parts.getD (parts.length - 2) "") else ""

/-- The decoded-JSON-object outcome of one `enrich_business_data` call:
`some entries` exactly when setup and the generative call succeed and the
extracted text decodes (possibly after the quote retry) to a JSON object. -/
def mainDecoded (env : GEnv) : Option (List (String × Val)) :=
  match env.setup, env.gen with
  | .ok _, .ok raw => decodeWithRetry env.loads (mainJsonText (pyStrip raw))
  | _, _ => none

/-- `enrich_business_data` (gemini_client.py lines 104-190).  Total: every
exception of the source is caught by its own `try`/`except` blocks, so the
embedding returns a `Dict` for every environment and lead. -/
def enrich_business_data (env : GEnv) (business : Dict) : Dict :=
  let business_name := business.getStr "name" ""
  let business_address := businessAddressOf business
  let location := locationOf business_address
  match env.setup with
  | .error _ => outerDefaults business business_name location
  | .ok _ =>
      let _search_results := search_business_info env business_name location
      match env.gen with
      | .error _ => outerDefaults business business_name location
      | .ok raw =>
          let response_text := pyStrip raw
          match decodeWithRetry env.loads (mainJsonText response_text) with
          | some enriched_data => mergeEntries business enriched_data
          | none => innerDefaults business business_name location

/-- Number of external requests `enrich_business_data` attempts: none when
`setup_gemini` raises, otherwise the search request and the generative
request — attempted for every lead, with no missing-input check. -/
def main_enrich_external_calls (env : GEnv) : Nat :=
  match env.setup with
  | .error _ => 0
  | .ok _ => 2

/-- `x.get("lead_score", 0)`, the sort key of both orchestrators. -/
def scoreKey (d : Dict) : Rat := d.getNum "lead_score" 0

/-- Line 194 of `enrich_leads`: stable-sort by score descending, take the
top `max_leads`. -/
def selectTopLeads (leads : List Dict) (max_leads : Nat) : List Dict :=
  (stableSortDesc scoreKey leads).take max_leads

/-- The per-lead fallback of `enrich_leads`' `except` branch
(lines 209-218). -/
def leadFallback (lead : Dict) : Dict :=
  (((((lead.set "description"
      (.str ("Basic business in " ++ lead.getStr "address" ""))).set
      "company_size" (.str "Unknown")).set
      "decision_makers" (.str "Owner/Manager")).set
      "pain_points" (.str "Unknown")).set
      "recommended_approach" (.str "Exploratory contact")).set
      "outreach_template"
      (.str ("Hello, I\x27m reaching out regarding " ++ lead.getStr "name" "Unknown" ++ "..."))

/-- The `for i, lead in enumerate(top_leads)` loop of `enrich_leads`
(lines 200-218): one output element is appended per selected lead, whether
the per-lead enrichment call returns (`.ok`) or raises (`.error`, handled
by the `except` branch which fills the sentinel fields). -/
def enrichLeadsLoop (call : Nat → Dict → Except Unit Dict) :
    Nat → List Dict → List Dict
  | _, [] => []
  | i, lead :: rest =>
      (match call i lead with
       | .ok enriched => enriched
       | .error _ => leadFallback lead) :: enrichLeadsLoop call (i + 1) rest

/-- `enrich_leads` (lines 192-223), with the per-iteration enrichment call
abstracted as `call`. -/
def enrich_leads (call : Nat → Dict → Except Unit Dict)
    (leads : List Dict) (max_leads : Nat) : List Dict :=
  enrichLeadsLoop call 0 (selectTopLeads leads max_leads)

/-- The concrete oracle run by `enrich_leads`: iteration `i` either raises
(abstract `raises i`, covering exceptions the `try` guards against) or runs
`enrich_business_data` under that iteration's environment. -/
def mainEnrichCall (envs : Nat → GEnv) (raises : Nat → Bool) :
    Nat → Dict → Except Unit Dict :=
  fun i lead => if raises i then .error () else .ok (enrich_business_data (envs i) lead)

/-!
## `gem_try/gem_gemini_enrichment.py` — enrichment client (gem variant)
-/

/-- A generative response as read by `enrich_lead_data_with_gemini`:
whether `response.parts` is non-empty, the response text, and the optional
`prompt_feedback.block_reason`. -/
structure GemResponse where
  parts : Bool
  text : String
  block_reason : Option String

/-- Environment for one `enrich_lead_data_with_gemini` call. -/
structure GemEnv where
  gen : Except Unit GemResponse
  loads : String → Option Jres

/-- Line 49: the early return for a missing name or address. -/
def missingInputResult : Dict :=
  [("linkedin_url", .str "N/A"), ("key_contacts", .vlist []),
   ("description", .str "Missing Input"), ("enriched_website", .str "N/A")]

/-- Lines 98-100: the default `enriched_info` values. -/
def gemDefaultInfo : Dict :=
  [("enriched_website", .str "N/A"), ("linkedin_url", .str "N/A"),
   ("key_contacts", .vlist []), ("description", .str "N/A")]

/-- Lines 118-124: validate the decoded object against the expected keys,
defaulting each missing string field to `"Parse Error"` and coercing
`key_contacts` to a list (`[]` when absent or not a list). -/
def gemApplyParsed (enriched_info : Dict) (parsed_json : List (String × Val)) : Dict :=
  (((enriched_info.set "enriched_website"
      ((Dict.get? parsed_json "enriched_website").getD (.str "Parse Error"))).set
      "linkedin_url" ((Dict.get? parsed_json "linkedin_url").getD (.str "Parse Error"))).set
      "key_contacts"
      (match Dict.get? parsed_json "key_contacts" with
       | some (.vlist l) => .vlist l
       | _ => .vlist [])).set
      "description" ((Dict.get? parsed_json "description").getD (.str "Parse Error"))

/-- `enrich_lead_data_with_gemini` (gem_gemini_enrichment.py lines 35-153).
Total: every exception of the generative call or of parsing is caught
locally; the result always carries exactly the four enrichment keys. -/
def enrich_lead_data_with_gemini (env : GemEnv) (lead_data : Dict) : Dict :=
  if !truthy (lead_data.get? "name") || !truthy (lead_data.get? "address") then
    missingInputResult
  else
    let enriched_info := gemDefaultInfo
    match env.gen with
    | .error _ => enriched_info.set "description" (.str "API Error")
    | .ok response =>
        if response.parts then
          match jsonSlice response.text with
          | some json_str =>
              match env.loads json_str with
              | some (.obj parsed_json) => gemApplyParsed enriched_info parsed_json
              | some (.nonObj _) => enriched_info.set "description" (.str "General Parse Error")
              | none => enriched_info.set "description" (.str "JSON Parse Error")
          | none => enriched_info.set "description" (.str "Response Format Error")
        else
          match response.block_reason with
          | some reason => enriched_info.set "description" (.str ("Blocked: " ++ reason))
          | none => enriched_info.set "description" (.str "No response")

/-- Number of generative requests `enrich_lead_data_with_gemini` attempts:
none when the missing-input check fires, one otherwise. -/
def gem_enrich_external_calls (lead_data : Dict) : Nat :=
  if !truthy (lead_data.get? "name") || !truthy (lead_data.get? "address") then 0 else 1

/-!
## `gem_try/gem_google_maps_client.py` — lead fetching (gem variant)
-/

/-- A raw nearby-search entry as read by the `fetch_leads` loop: only
`place.get('place_id')` is consulted (`""` stands for a falsy/absent id). -/
structure GemPlace where
  place_id : String

/-- A gem-variant `get_place_details` result (the `fields` list of
lines 70-74), as read by `fetch_leads` lines 129-148. -/
structure GemDetails where
  name : Option String
  formatted_address : Option String
  formatted_phone_number : Option String
  website : Option String
  rating : Option Rat
  user_ratings_total : Option Nat
  types : List String
  loc_lat : Option Rat
  loc_lng : Option Rat
  business_status : Option String
  url : Option String

/-- Python `int(...)` (truncation toward zero) on a rational. -/
def pyInt (q : Rat) : Int :=
  if q < 0 then Int.ceil q else Int.floor q

/-- gem_google_maps_client.py line 148: the gem-variant score,
`int(min(rating * 15 + min(reviews / 10, 35), 100))`. -/
def gemLeadScore (rating : Rat) (reviews : Nat) : Int :=
  pyInt (min (rating * 15 + min ((reviews : Rat) / 10) 35) 100)

/-- Lines 131-147: the lead record built for a place that passed the
filters. -/
def gemLeadData (lat lng : Rat) (place_id : String) (details : GemDetails)
    (rating : Rat) (reviews : Nat) : Dict :=
  [("name", .str (details.name.getD "N/A")),
   ("type", .str (String.intercalate ", " details.types)),
   ("address", .str (details.formatted_address.getD "N/A")),
   ("phone", .str (details.formatted_phone_number.getD "N/A")),
   ("website", .str (details.website.getD "N/A")),
   ("rating", .num rating),
   ("reviews", .num reviews),
   ("lat", .num (details.loc_lat.getD lat)),
   ("lng", .num (details.loc_lng.getD lng)),
   ("place_id", .str place_id),
   ("google_maps_url", .str (details.url.getD "N/A")),
   ("status", .str (details.business_status.getD "N/A")),
   ("lead_score", .num (gemLeadScore rating reviews))]

/-- The detail-fetch-filter-format loop of `fetch_leads`
(lines 115-152): a falsy `place_id` or a failed detail fetch skips the
place (`continue`); survivors are kept only when
`rating >= min_rating and reviews >= min_reviews and
details.get('business_status') == 'OPERATIONAL'`. -/
def fetch_leads_process (lat lng : Rat) (min_rating : Rat) (min_reviews : Nat)
    (details_of : String → Option GemDetails) (places : List GemPlace) : List Dict :=
  places.filterMap (fun place =>
    if place.place_id == "" then none
    else
      match details_of place.place_id with
      | none => none
      | some details =>
          let rating := details.rating.getD 0
          let reviews := details.user_ratings_total.getD 0
          if min_rating ≤ rating ∧ min_reviews ≤ reviews ∧
              details.business_status = some "OPERATIONAL" then
            some (gemLeadData lat lng place.place_id details rating reviews)
          else none)

/-- Lines 157-163 of `fetch_leads`: sort the filtered leads by score
descending (stable) and keep the top `limit`. -/
def fetch_leads_select (limit : Nat) (potential_leads : List Dict) : List Dict :=
  (stableSortDesc scoreKey potential_leads).take limit

/-- `fetch_leads` after the nearby search: process, sort, limit. -/
def fetch_leads_model (lat lng : Rat) (min_rating : Rat) (min_reviews : Nat)
    (limit : Nat) (details_of : String → Option GemDetails)
    (places : List GemPlace) : List Dict :=
  fetch_leads_select limit (fetch_leads_process lat lng min_rating min_reviews details_of places)

/-!
## `gem_try/gem_app.py` — enrichment merge loop and fallback
-/

/-- gem_app.py lines 210-226: merge enrichment results into a copy of the
lead, writing only the four enrichment keys (`if enrichment_info:` — the
`else` defaults would only apply to an empty result). -/
def gemAppMergeLead (lead : Dict) (enrichment_info : Dict) : Dict :=
  let updated_lead := lead
  if !enrichment_info.isEmpty then
    (((updated_lead.set "enriched_website"
        ((enrichment_info.get? "enriched_website").getD (.str "N/A"))).set
        "linkedin_url" ((enrichment_info.get? "linkedin_url").getD (.str "N/A"))).set
        "key_contacts" ((enrichment_info.get? "key_contacts").getD (.vlist []))).set
        "description" ((enrichment_info.get? "description").getD (.str "N/A"))
  else
    (((updated_lead.set "enriched_website" (.str "Error")).set
        "linkedin_url" (.str "Error")).set
        "key_contacts" (.vlist [])).set
        "description" (.str "Enrichment Error")

/-- The enrichment loop of gem_app.py lines 203-227, accumulating one
merged lead per input.  `failAt = some k` models an exception thrown inside
the `try` block while lead `k` is being processed (for `k = 0`, this also
covers a client-initialization failure): the loop stops and the leads
appended so far remain. -/
def gemAppEnrichLoop (envs : Nat → GemEnv) (failAt : Option Nat) :
    Nat → List Dict → List Dict
  | _, [] => []
  | i, lead :: rest =>
      if failAt = some i then []
      else
        gemAppMergeLead lead (enrich_lead_data_with_gemini (envs i) lead) ::
          gemAppEnrichLoop envs failAt (i + 1) rest

/-- Whether the modelled exception actually fired while processing `n`
leads. -/
def gemAppExceptionFired (failAt : Option Nat) (n : Nat) : Bool :=
  match failAt with
  | some k => decide (k < n)
  | none => false

/-- gem_app.py lines 191-241: run the enrichment loop under the outer
`try`; on an exception with no lead yet processed, fall back to the
un-enriched base leads (lines 238-241). -/
def gemAppEnrichPhase (envs : Nat → GemEnv) (failAt : Option Nat)
    (gmaps_leads_data : List Dict) : List Dict :=
  let enriched_leads_data_list := gemAppEnrichLoop envs failAt 0 gmaps_leads_data
  if gemAppExceptionFired failAt gmaps_leads_data.length ∧ enriched_leads_data_list.isEmpty then
    gmaps_leads_data
  else
    enriched_leads_data_list

/-!
## Claims
-/

section Claims

/-- The website string recorded for a processed business: `""` both when the
detail fetch failed (key absent, falsy) and when the detail had no website. -/
def websiteStrOf (details : Option RawDetails) : String :=
  match details with
  | some d => d.website.getD ""
  | none => ""

/-- The phone string recorded for a processed business. -/
def phoneStrOf (details : Option RawDetails) : String :=
  match details with
  | some d => d.formatted_phone_number.getD ""
  | none => ""

/-- C3: for every lead record, the lead score of `get_business_leads` equals
50 plus 10 for rating ≥ 4.5, plus 10 for reviews ≥ 200, plus 10 for a
non-empty website, plus 10 for a non-empty phone, and lies in [0, 100]; the
gem-variant score (`fetch_leads` line 148) also lies in [0, 100] for any
non-negative rating. -/
theorem C3_lead_score (business : RawPlace) (details : Option RawDetails)
    (grating : Rat) (greviews : Nat) (hg : 0 ≤ grating) :
    ((processBusiness business details).getNum "lead_score" 0 =
        50 + (if (4.5 : Rat) ≤ business.rating.getD 0 then 10 else 0)
           + (if (200 : Rat) ≤ (business.reviews.getD 0 : Nat) then 10 else 0)
           + (if websiteStrOf details ≠ "" then 10 else 0)
           + (if phoneStrOf details ≠ "" then 10 else 0)) ∧
    (0 ≤ (processBusiness business details).getNum "lead_score" 0 ∧
      (processBusiness business details).getNum "lead_score" 0 ≤ 100) ∧
    (0 ≤ gemLeadScore grating greviews ∧ gemLeadScore grating greviews ≤ 100) := by
  have hmain : (processBusiness business details).getNum "lead_score" 0 =
      50 + (if (4.5 : Rat) ≤ business.rating.getD 0 then 10 else 0)
         + (if (200 : Rat) ≤ (business.reviews.getD 0 : Nat) then 10 else 0)
         + (if websiteStrOf details ≠ "" then 10 else 0)
         + (if phoneStrOf details ≠ "" then 10 else 0) := by
    cases details with
    | none =>
        simp [processBusiness, websiteStrOf, phoneStrOf, Dict.getNum, Dict.get?_cons,
          Dict.get?_set_self, Dict.get?_set_ne, truthy, Dict.get?_nil]
    | some d =>
        simp [processBusiness, websiteStrOf, phoneStrOf, Dict.getNum, Dict.get?_cons,
          Dict.get?_set_self, Dict.get?_set_ne, truthy]
  refine ⟨hmain, ⟨?_, ?_⟩, ?_, ?_⟩
  · rw [hmain]; split_ifs <;> norm_num
  · rw [hmain]; split_ifs <;> norm_num
  · have hx : (0 : Rat) ≤ min (grating * 15 + min ((greviews : Rat) / 10) 35) 100 :=
      le_min (add_nonneg (mul_nonneg hg (by norm_num))
        (le_min (div_nonneg (Nat.cast_nonneg greviews) (by norm_num)) (by norm_num)))
        (by norm_num)
    unfold gemLeadScore pyInt
    rw [if_neg (not_lt.mpr hx)]
    exact Int.le_floor.mpr (by exact_mod_cast hx)
  · have hle : min (grating * 15 + min ((greviews : Rat) / 10) 35) 100 ≤ 100 :=
      min_le_right _ _
    have hx : (0 : Rat) ≤ min (grating * 15 + min ((greviews : Rat) / 10) 35) 100 :=
      le_min (add_nonneg (mul_nonneg hg (by norm_num))
        (le_min (div_nonneg (Nat.cast_nonneg greviews) (by norm_num)) (by norm_num)))
        (by norm_num)
    unfold gemLeadScore pyInt
    rw [if_neg (not_lt.mpr hx)]
    have := (Int.floor_le (α := Rat) (min (grating * 15 + min ((greviews : Rat) / 10) 35) 100))
    have h100 : ((100 : Int) : Rat) = (100 : Rat) := by norm_num
    exact_mod_cast le_trans this hle

/-- Witness for C3 at a concrete business. -/
theorem C3_lead_score_witness :
    (0 : Rat) ≤ 4 ∧
    (processBusiness ⟨"p1", "Biz", "Somewhere", 1, 2, some 4.6, some 250, [], []⟩
        (some ⟨some "1 Main St", some "555", some "http://biz.example", []⟩)).getNum
        "lead_score" 0 = 90 := by
  refine ⟨by norm_num, ?_⟩
  have h := (C3_lead_score ⟨"p1", "Biz", "Somewhere", 1, 2, some 4.6, some 250, [], []⟩
    (some ⟨some "1 Main St", some "555", some "http://biz.example", []⟩) 4 0
    (by norm_num)).1
  rw [h]
  simp [websiteStrOf, phoneStrOf]
  norm_num

/-- A minimal scored lead for the C4 scenario. -/
def scoredLead (pid : String) (score : Rat) : Dict :=
  [("place_id", .str pid), ("lead_score", .num score)]

/-- C4: the orchestrator's selection step (`enrich_leads` line 194) sorts by
`lead_score` descending with a stable sort — the output is sorted, and for
every score value the records carrying it keep their original relative
order — and on scores [90, 70, 90, 50] with `max_leads = 3` it selects the
two score-90 leads in original order, then the score-70 lead, dropping the
score-50 lead. -/
theorem C4_sort_stable :
    (∀ l : List Dict, (stableSortDesc scoreKey l).Pairwise (fun a b => scoreKey b ≤ scoreKey a)) ∧
    (∀ (l : List Dict) (s : Rat),
      (stableSortDesc scoreKey l).filter (fun z => decide (scoreKey z = s)) =
        l.filter (fun z => decide (scoreKey z = s))) ∧
    (∀ l : List Dict, (stableSortDesc scoreKey l).Perm l) ∧
    selectTopLeads
        [scoredLead "A" 90, scoredLead "B" 70, scoredLead "C" 90, scoredLead "D" 50] 3 =
      [scoredLead "A" 90, scoredLead "C" 90, scoredLead "B" 70] := by
  refine ⟨stableSortDesc_sorted scoreKey, stableSortDesc_stable scoreKey,
    stableSortDesc_perm scoreKey, ?_⟩
  norm_num [selectTopLeads, stableSortDesc, stableInsertDesc, scoredLead, scoreKey,
    Dict.getNum, Dict.get?_cons]
  simp
  all_goals norm_num

/-- C9: if the gem_app enrichment phase hits an exception before any lead
has been processed, the caller falls back to the un-enriched base leads;
with non-empty base data the phase never returns an empty list. -/
theorem C9_enrichment_fallback (envs : Nat → GemEnv) (baseLeads : List Dict)
    (h : baseLeads ≠ []) :
    gemAppEnrichPhase envs (some 0) baseLeads = baseLeads ∧
    ∀ failAt : Option Nat, gemAppEnrichPhase envs failAt baseLeads ≠ [] := by
  obtain ⟨b, bs, rfl⟩ := List.exists_cons_of_ne_nil h
  constructor
  · simp [gemAppEnrichPhase, gemAppEnrichLoop, gemAppExceptionFired]
  · intro failAt
    by_cases hf : failAt = some 0
    · subst hf
      simp [gemAppEnrichPhase, gemAppEnrichLoop, gemAppExceptionFired]
    · simp [gemAppEnrichPhase, gemAppEnrichLoop, hf]

/-- Witness for C9 at a concrete base list and environment. -/
theorem C9_enrichment_fallback_witness :
    gemAppEnrichPhase (fun _ => ⟨.error (), fun _ => none⟩) (some 0)
        [[("name", Val.str "Acme")]] = [[("name", Val.str "Acme")]] ∧
    gemAppEnrichPhase (fun _ => ⟨.error (), fun _ => none⟩) none
        [[("name", Val.str "Acme")]] ≠ [] := by
  have h := C9_enrichment_fallback (fun _ => ⟨.error (), fun _ => none⟩)
    [[("name", Val.str "Acme")]] (by simp)
  exact ⟨h.1, h.2 none⟩

/-- C10: every lead returned by the gem-variant `fetch_leads` passed the
filter `rating >= min_rating and reviews >= min_reviews and
business_status == 'OPERATIONAL'`; its recorded rating/reviews satisfy the
thresholds and its recorded status is `"OPERATIONAL"`. -/
theorem C10_fetch_leads_filters (lat lng min_rating : Rat) (min_reviews limit : Nat)
    (details_of : String → Option GemDetails) (places : List GemPlace) (d : Dict)
    (hd : d ∈ fetch_leads_model lat lng min_rating min_reviews limit details_of places) :
    (∃ r : Rat, d.get? "rating" = some (.num r) ∧ min_rating ≤ r) ∧
    (∃ n : Nat, d.get? "reviews" = some (.num n) ∧ min_reviews ≤ n) ∧
    d.get? "status" = some (.str "OPERATIONAL") := by
  have hd' : d ∈ fetch_leads_process lat lng min_rating min_reviews details_of places := by
    have := List.mem_of_mem_take (l := stableSortDesc scoreKey
      (fetch_leads_process lat lng min_rating min_reviews details_of places)) hd
    exact (mem_stableSortDesc scoreKey _ d).mp this
  rw [fetch_leads_process, List.mem_filterMap] at hd'
  obtain ⟨place, _, hf⟩ := hd'
  by_cases hid : place.place_id == ""
  · simp [hid] at hf
  · rw [if_neg (by simp_all)] at hf
    cases hdet : details_of place.place_id with
    | none => rw [hdet] at hf; exact absurd hf (by simp)
    | some details =>
        rw [hdet] at hf
        dsimp only at hf
        by_cases hcond : min_rating ≤ details.rating.getD 0 ∧
            min_reviews ≤ details.user_ratings_total.getD 0 ∧
            details.business_status = some "OPERATIONAL"
        · rw [if_pos hcond] at hf
          obtain ⟨h1, h2, h3⟩ := hcond
          obtain rfl := Option.some.inj hf
          refine ⟨⟨details.rating.getD 0, ?_, h1⟩,
            ⟨details.user_ratings_total.getD 0, ?_, h2⟩, ?_⟩
          · rfl
          · rfl
          · simp only [gemLeadData, h3]
            rfl
        · rw [if_neg hcond] at hf; exact absurd hf (by simp)

/-- Concrete details record for the C10 witness. -/
def c10details : GemDetails :=
  ⟨some "Cafe One", some "1 Main St", some "555", some "http://c.example",
    some 5, some 120, ["cafe"], some 1, some 2, some "OPERATIONAL", some "http://maps"⟩

/-- Witness for C10 at a concrete place list and detail oracle. -/
theorem C10_fetch_leads_filters_witness :
    ∃ d ∈ fetch_leads_model 1 2 4 100 8
        (fun pid => if pid == "p1" then some c10details else none) [⟨"p1"⟩],
      (∃ r : Rat, d.get? "rating" = some (.num r) ∧ (4 : Rat) ≤ r) ∧
      (∃ n : Nat, d.get? "reviews" = some (.num n) ∧ 100 ≤ n) ∧
      d.get? "status" = some (.str "OPERATIONAL") := by
  have heq : fetch_leads_model 1 2 4 100 8
      (fun pid => if pid == "p1" then some c10details else none) [⟨"p1"⟩] =
      [gemLeadData 1 2 "p1" c10details 5 120] := rfl
  have hmem : gemLeadData 1 2 "p1" c10details 5 120 ∈
      fetch_leads_model 1 2 4 100 8
        (fun pid => if pid == "p1" then some c10details else none) [⟨"p1"⟩] := by
    rw [heq]
    exact List.mem_singleton.mpr rfl
  exact ⟨gemLeadData 1 2 "p1" c10details 5 120, hmem,
    C10_fetch_leads_filters 1 2 4 100 8
      (fun pid => if pid == "p1" then some c10details else none) [⟨"p1"⟩]
      (gemLeadData 1 2 "p1" c10details 5 120) hmem⟩

/-- C5 counterexample: `enrich_business_data` performs no missing-input
check.  On a lead with an empty name it still attempts its external calls
(search and generative request) and returns the generic failure sentinel,
not "Missing Input". -/
theorem C5_counterexample :
    main_enrich_external_calls ⟨.ok (), .ok [], .error (), fun _ => none⟩ = 2 ∧
    (enrich_business_data ⟨.ok (), .ok [], .error (), fun _ => none⟩
        [("name", .str ""), ("address", .str "X")]).get? "description" =
      some (.str " operates in . Limited info available.") ∧
    (Val.str " operates in . Limited info available.") ≠ (.str "Missing Input") := by
  refine ⟨rfl, rfl, ?_⟩
  intro h
  injection h with h'
  exact absurd h' (by decide)

/-- C5 (amended): the missing-input check exists only in the gem variant.
`enrich_lead_data_with_gemini` on a lead with a falsy `name` returns
immediately — no generative request — with `description = "Missing Input"`
and the remaining fields set to the `'N/A'` / `[]` sentinels. -/
theorem C5_missing_input (env : GemEnv) (lead_data : Dict)
    (h : truthy (lead_data.get? "name") = false) :
    enrich_lead_data_with_gemini env lead_data = missingInputResult ∧
    (enrich_lead_data_with_gemini env lead_data).get? "description" =
      some (.str "Missing Input") ∧
    gem_enrich_external_calls lead_data = 0 := by
  have h1 : enrich_lead_data_with_gemini env lead_data = missingInputResult := by
    simp [enrich_lead_data_with_gemini, h]
  refine ⟨h1, by rw [h1]; rfl, by simp [gem_enrich_external_calls, h]⟩

/-- Witness for C5 at a concrete lead with an empty name. -/
theorem C5_missing_input_witness :
    truthy (Dict.get? [("name", Val.str ""), ("address", Val.str "X")] "name") = false ∧
    enrich_lead_data_with_gemini ⟨.error (), fun _ => none⟩
        [("name", Val.str ""), ("address", Val.str "X")] = missingInputResult := by
  refine ⟨rfl, ?_⟩
  exact (C5_missing_input ⟨.error (), fun _ => none⟩
    [("name", Val.str ""), ("address", Val.str "X")] rfl).1

/-- C8 counterexample: in the main client (`get_business_leads`), a lead
whose detail fetch fails is NOT skipped — it is kept with base data only
(the detail merge is what gets skipped). -/
theorem C8_counterexample :
    (get_business_leads_process [⟨"p1", "Biz", "Addr", 0, 0, none, none, [], []⟩]
        (fun _ => none)).length = 1 ∧
    (get_business_leads_process [⟨"p1", "Biz", "Addr", 0, 0, none, none, [], []⟩]
        (fun _ => none)).map (fun d => d.getStr "place_id" "") = ["p1"] :=
  ⟨rfl, rfl⟩

/-- C8 (amended): the main client keeps every search result (one output
record per place, so a detail failure neither skips a lead nor aborts the
batch); the gem-variant `fetch_leads` is the one that skips a place whose
detail fetch returns nothing, and it processes places independently, so a
failing place does not abort the rest of the batch. -/
theorem C8_detail_failure (places : List RawPlace)
    (details_of : String → Option RawDetails)
    (glat glng gmr : Rat) (gmv : Nat) (gdetails : String → Option GemDetails)
    (gplacesA gplacesB : List GemPlace) (pid : String)
    (hpid : gdetails pid = none) :
    (get_business_leads_process places details_of).length = places.length ∧
    (∀ d ∈ fetch_leads_process glat glng gmr gmv gdetails (gplacesA ++ gplacesB),
        d.getStr "place_id" "" ≠ pid) ∧
    fetch_leads_process glat glng gmr gmv gdetails (gplacesA ++ gplacesB) =
      fetch_leads_process glat glng gmr gmv gdetails gplacesA ++
        fetch_leads_process glat glng gmr gmv gdetails gplacesB := by
  refine ⟨by simp [get_business_leads_process], ?_, by
    simp [fetch_leads_process, List.filterMap_append]⟩
  intro d hd
  rw [fetch_leads_process, List.mem_filterMap] at hd
  obtain ⟨place, _, hf⟩ := hd
  by_cases hid : place.place_id == ""
  · simp [hid] at hf
  · rw [if_neg (by simp_all)] at hf
    cases hdet : gdetails place.place_id with
    | none => rw [hdet] at hf; exact absurd hf (by simp)
    | some details =>
        rw [hdet] at hf
        dsimp only at hf
        by_cases hcond : gmr ≤ details.rating.getD 0 ∧
            gmv ≤ details.user_ratings_total.getD 0 ∧
            details.business_status = some "OPERATIONAL"
        · rw [if_pos hcond] at hf
          obtain rfl := Option.some.inj hf
          intro heq
          have hips : (gemLeadData glat glng place.place_id details
              (details.rating.getD 0) (details.user_ratings_total.getD 0)).getStr
              "place_id" "" = place.place_id := rfl
          rw [hips] at heq
          rw [heq] at hdet
          rw [hdet] at hpid
          exact Option.noConfusion hpid
        · rw [if_neg hcond] at hf; exact absurd hf (by simp)

/-- Witness for C8 at a concrete oracle that fails on the probed id. -/
theorem C8_detail_failure_witness :
    (fun _ : String => (none : Option GemDetails)) "p0" = none ∧
    (get_business_leads_process [⟨"p2", "Biz", "Addr", 0, 0, none, none, [], []⟩]
        (fun _ => some ⟨some "A", some "5", some "w", []⟩)).length = 1 ∧
    (∀ d ∈ fetch_leads_process 0 0 0 0 (fun _ => none) ([⟨"p0"⟩] ++ []),
        d.getStr "place_id" "" ≠ "p0") := by
  refine ⟨rfl, ?_, ?_⟩
  · exact (C8_detail_failure [⟨"p2", "Biz", "Addr", 0, 0, none, none, [], []⟩]
      (fun _ => some ⟨some "A", some "5", some "w", []⟩) 0 0 0 0
      (fun _ => none) [⟨"p0"⟩] [] "p0" rfl).1
  · exact (C8_detail_failure [⟨"p2", "Biz", "Addr", 0, 0, none, none, [], []⟩]
      (fun _ => some ⟨some "A", some "5", some "w", []⟩) 0 0 0 0
      (fun _ => none) [⟨"p0"⟩] [] "p0" rfl).2.1

theorem mergeEntries_get?_not_mem (b : Dict) (entries : List (String × Val))
    (k : String) (h : ∀ kv ∈ entries, kv.1 ≠ k) :
    (mergeEntries b entries).get? k = b.get? k := by
  induction entries generalizing b with
  | nil => rfl
  | cons kv rest ih =>
      rw [mergeEntries, List.foldl_cons]
      have := ih (b.set kv.1 kv.2) (fun kv' h' => h kv' (List.mem_cons_of_mem kv h'))
      rw [mergeEntries] at this
      rw [this, Dict.get?_set_ne b k kv.1 kv.2 (fun hk =>
        h kv (List.mem_cons_self kv rest) hk.symm)]

/-- C7 counterexample: the main client's merge (`enrich_business_data`
lines 164-165) writes every decoded key onto the lead, so a decoded object
carrying an identity key overwrites it — here `name` flips from "Acme" to
"HACKED". -/
theorem C7_counterexample :
    (enrich_business_data
        ⟨.ok (), .ok [], .ok "\x7b\x7d",
          fun t => if t == "\x7b\x7d" then some (.obj [("name", .str "HACKED")]) else none⟩
        [("place_id", .str "p1"), ("name", .str "Acme"),
         ("address", .str "1 Main St")]).get? "name" = some (.str "HACKED") ∧
    (Dict.get? [("place_id", .str "p1"), ("name", .str "Acme"),
        ("address", .str "1 Main St")] "name") = some (.str "Acme") ∧
    (Val.str "HACKED") ≠ (.str "Acme") := by
  refine ⟨rfl, rfl, ?_⟩
  intro h
  injection h with h'
  exact absurd h' (by decide)

/-- C7 (amended): the gem_app merge loop copies the lead and writes only
the four enrichment keys, leaving every other key — in particular the
identity fields — untouched; the main client's merge leaves a key
untouched only when the decoded object does not contain it. -/
theorem C7_merge_identity (lead info : Dict) (k : String)
    (hk : k ∉ ["enriched_website", "linkedin_url", "key_contacts", "description"])
    (b : Dict) (entries : List (String × Val)) (k' : String)
    (hk' : ∀ kv ∈ entries, kv.1 ≠ k') :
    (gemAppMergeLead lead info).get? k = lead.get? k ∧
    (mergeEntries b entries).get? k' = b.get? k' := by
  refine ⟨?_, mergeEntries_get?_not_mem b entries k' hk'⟩
  simp only [List.mem_cons, List.not_mem_nil, or_false, not_or] at hk
  obtain ⟨h1, h2, h3, h4⟩ := hk
  rw [gemAppMergeLead]
  split
  · rw [Dict.get?_set_ne _ _ _ _ h4, Dict.get?_set_ne _ _ _ _ h3,
      Dict.get?_set_ne _ _ _ _ h2, Dict.get?_set_ne _ _ _ _ h1]
  · rw [Dict.get?_set_ne _ _ _ _ h4, Dict.get?_set_ne _ _ _ _ h3,
      Dict.get?_set_ne _ _ _ _ h2, Dict.get?_set_ne _ _ _ _ h1]

/-- Witness for C7 on the identity key `place_id`. -/
theorem C7_merge_identity_witness :
    (gemAppMergeLead [("place_id", Val.str "p9")] missingInputResult).get? "place_id" =
      some (.str "p9") ∧
    (mergeEntries [("place_id", Val.str "p9")] [("description", .str "D")]).get? "place_id" =
      some (.str "p9") := by
  have h := C7_merge_identity [("place_id", Val.str "p9")] missingInputResult "place_id"
    (by decide) [("place_id", Val.str "p9")] [("description", .str "D")] "place_id"
    (by intro kv hkv; rw [List.mem_singleton] at hkv; subst hkv; decide)
  exact ⟨h.1.trans rfl, h.2.trans rfl⟩

/-- The six enrichment keys of the main client (§4.3's EnrichmentResult). -/
def sixEnrichmentKeys : List String :=
  ["description", "company_size", "decision_makers", "pain_points",
   "recommended_approach", "outreach_template"]

/-- The four enrichment keys of the gem variant. -/
def gemFourKeys : List String :=
  ["enriched_website", "linkedin_url", "key_contacts", "description"]

theorem outerDefaults_isSome (b : Dict) (n l : String) (k : String)
    (hk : k ∈ sixEnrichmentKeys) : ((outerDefaults b n l).get? k).isSome = true := by
  simp only [sixEnrichmentKeys, List.mem_cons, List.not_mem_nil, or_false] at hk
  rcases hk with rfl | rfl | rfl | rfl | rfl | rfl <;>
    simp [outerDefaults, Dict.isSome_get?_set]

theorem innerDefaults_isSome (b : Dict) (n l : String) (k : String)
    (hk : k ∈ sixEnrichmentKeys) : ((innerDefaults b n l).get? k).isSome = true := by
  simp only [sixEnrichmentKeys, List.mem_cons, List.not_mem_nil, or_false] at hk
  rcases hk with rfl | rfl | rfl | rfl | rfl | rfl <;>
    simp [innerDefaults, Dict.isSome_get?_set]

theorem isSome_get?_missingInput (k : String) :
    ((missingInputResult : Dict).get? k).isSome = true ↔ k ∈ gemFourKeys := by
  rw [Dict.isSome_get?_iff]
  simp only [missingInputResult, gemFourKeys, List.map_cons, List.map_nil,
    List.mem_cons, List.not_mem_nil, or_false]
  tauto

theorem isSome_get?_gemDefaultInfo (k : String) :
    ((gemDefaultInfo : Dict).get? k).isSome = true ↔ k ∈ gemFourKeys := by
  rw [Dict.isSome_get?_iff]
  simp only [gemDefaultInfo, gemFourKeys, List.map_cons, List.map_nil,
    List.mem_cons, List.not_mem_nil, or_false]

theorem gemSetDescription_keys (v : Val) (k : String) :
    (((gemDefaultInfo : Dict).set "description" v).get? k).isSome = true ↔
      k ∈ gemFourKeys := by
  rw [Dict.isSome_get?_set, isSome_get?_gemDefaultInfo]
  simp only [gemFourKeys, List.mem_cons, List.not_mem_nil, or_false]
  tauto

theorem gemApplyParsed_keys (parsed : List (String × Val)) (k : String) :
    ((gemApplyParsed gemDefaultInfo parsed).get? k).isSome = true ↔ k ∈ gemFourKeys := by
  rw [gemApplyParsed, Dict.isSome_get?_set, Dict.isSome_get?_set, Dict.isSome_get?_set,
    Dict.isSome_get?_set, isSome_get?_gemDefaultInfo]
  simp only [gemFourKeys, List.mem_cons, List.not_mem_nil, or_false]
  tauto

theorem gem_result_keys (env : GemEnv) (lead_data : Dict) (k : String) :
    ((enrich_lead_data_with_gemini env lead_data).get? k).isSome = true ↔
      k ∈ gemFourKeys := by
  obtain ⟨gen, loads⟩ := env
  rw [enrich_lead_data_with_gemini]
  by_cases hmiss :
      (!truthy (lead_data.get? "name") || !truthy (lead_data.get? "address")) = true
  · rw [if_pos hmiss]; exact isSome_get?_missingInput k
  · rw [if_neg (by simpa using hmiss)]
    cases gen with
    | error e => exact gemSetDescription_keys _ k
    | ok response =>
        dsimp only
        by_cases hp : response.parts
        · rw [if_pos hp]
          cases jsonSlice response.text with
          | some json_str =>
              dsimp only
              cases hl : loads json_str with
              | some jr =>
                  cases jr with
                  | obj parsed => exact gemApplyParsed_keys parsed k
                  | nonObj v => exact gemSetDescription_keys _ k
              | none => exact gemSetDescription_keys _ k
          | none => exact gemSetDescription_keys _ k
        · rw [if_neg hp]
          cases response.block_reason with
          | some r => exact gemSetDescription_keys _ k
          | none => exact gemSetDescription_keys _ k

theorem main_sixkeys_of_decode_none (env : GEnv) (business : Dict)
    (h : mainDecoded env = none) (k : String) (hk : k ∈ sixEnrichmentKeys) :
    ((enrich_business_data env business).get? k).isSome = true := by
  obtain ⟨setup, duck, gen, loads⟩ := env
  cases setup with
  | error e =>
      simp only [enrich_business_data]
      exact outerDefaults_isSome _ _ _ k hk
  | ok u =>
      cases gen with
      | error e =>
          simp only [enrich_business_data]
          exact outerDefaults_isSome _ _ _ k hk
      | ok raw =>
          simp only [enrich_business_data]
          simp only [mainDecoded] at h
          rw [h]
          exact innerDefaults_isSome _ _ _ k hk

/-- C1 counterexample: when the generative response decodes to a JSON
object that lacks expected keys, `enrich_business_data` merges it verbatim
and returns a lead with a PARTIAL enrichment key set — here
`description` is present but `company_size` is missing. -/
theorem C1_counterexample :
    (enrich_business_data
        ⟨.ok (), .ok [], .ok "\x7b\"description\": \"D\"\x7d",
          fun t => if t == "\x7b\"description\": \"D\"\x7d"
            then some (.obj [("description", .str "D")]) else none⟩
        [("name", .str "Acme"), ("address", .str "1 Main St")]).get? "company_size" =
      none ∧
    (enrich_business_data
        ⟨.ok (), .ok [], .ok "\x7b\"description\": \"D\"\x7d",
          fun t => if t == "\x7b\"description\": \"D\"\x7d"
            then some (.obj [("description", .str "D")]) else none⟩
        [("name", .str "Acme"), ("address", .str "1 Main St")]).get? "description" =
      some (.str "D") :=
  ⟨rfl, rfl⟩

/-- C1 (amended): the gem-variant client always returns exactly its four
enrichment keys (and never raises — it is total); the main client never
raises, and populates all six enrichment keys whenever setup fails, the
generative call fails, or the response does not decode to a JSON object —
a decoded object is merged verbatim, so only then can keys be missing. -/
theorem C1_enrichment_totality :
    (∀ (env : GemEnv) (lead_data : Dict) (k : String),
      ((enrich_lead_data_with_gemini env lead_data).get? k).isSome = true ↔
        k ∈ gemFourKeys) ∧
    (∀ (env : GEnv) (business : Dict), mainDecoded env = none →
      ∀ k ∈ sixEnrichmentKeys, ((enrich_business_data env business).get? k).isSome = true) :=
  ⟨gem_result_keys, fun env business h k hk => main_sixkeys_of_decode_none env business h k hk⟩

/-- Witness for C1 at concrete failing environments. -/
theorem C1_enrichment_totality_witness :
    ((enrich_lead_data_with_gemini ⟨.error (), fun _ => none⟩
        [("name", Val.str "A"), ("address", Val.str "B")]).get? "description").isSome = true ∧
    mainDecoded ⟨.ok (), .ok [], .error (), fun _ => none⟩ = none ∧
    ((enrich_business_data ⟨.ok (), .ok [], .error (), fun _ => none⟩
        [("name", Val.str "A")]).get? "company_size").isSome = true := by
  refine ⟨(C1_enrichment_totality.1 ⟨.error (), fun _ => none⟩
      [("name", Val.str "A"), ("address", Val.str "B")] "description").mpr (by decide),
    rfl,
    C1_enrichment_totality.2 ⟨.ok (), .ok [], .error (), fun _ => none⟩
      [("name", Val.str "A")] rfl "company_size" (by decide)⟩

theorem outerDefaults_get?_ne (b : Dict) (n l : String) (k : String)
    (hk : k ∉ sixEnrichmentKeys) : (outerDefaults b n l).get? k = b.get? k := by
  simp only [sixEnrichmentKeys, List.mem_cons, List.not_mem_nil, or_false, not_or] at hk
  obtain ⟨h1, h2, h3, h4, h5, h6⟩ := hk
  rw [outerDefaults, Dict.get?_set_ne _ _ _ _ h6, Dict.get?_set_ne _ _ _ _ h5,
    Dict.get?_set_ne _ _ _ _ h4, Dict.get?_set_ne _ _ _ _ h3,
    Dict.get?_set_ne _ _ _ _ h2, Dict.get?_set_ne _ _ _ _ h1]

theorem innerDefaults_get?_ne (b : Dict) (n l : String) (k : String)
    (hk : k ∉ sixEnrichmentKeys) : (innerDefaults b n l).get? k = b.get? k := by
  simp only [sixEnrichmentKeys, List.mem_cons, List.not_mem_nil, or_false, not_or] at hk
  obtain ⟨h1, h2, h3, h4, h5, h6⟩ := hk
  rw [innerDefaults, Dict.get?_set_ne _ _ _ _ h6, Dict.get?_set_ne _ _ _ _ h5,
    Dict.get?_set_ne _ _ _ _ h4, Dict.get?_set_ne _ _ _ _ h3,
    Dict.get?_set_ne _ _ _ _ h2, Dict.get?_set_ne _ _ _ _ h1]

theorem leadFallback_get?_ne (b : Dict) (k : String)
    (hk : k ∉ sixEnrichmentKeys) : (leadFallback b).get? k = b.get? k := by
  simp only [sixEnrichmentKeys, List.mem_cons, List.not_mem_nil, or_false, not_or] at hk
  obtain ⟨h1, h2, h3, h4, h5, h6⟩ := hk
  rw [leadFallback, Dict.get?_set_ne _ _ _ _ h6, Dict.get?_set_ne _ _ _ _ h5,
    Dict.get?_set_ne _ _ _ _ h4, Dict.get?_set_ne _ _ _ _ h3,
    Dict.get?_set_ne _ _ _ _ h2, Dict.get?_set_ne _ _ _ _ h1]

theorem decodeWithRetry_some (loads : String → Option Jres) (t : String)
    (entries : List (String × Val)) (h : decodeWithRetry loads t = some entries) :
    loads t = some (.obj entries) ∨
      loads (pyReplace t "\x27" "\"") = some (.obj entries) := by
  rw [decodeWithRetry] at h
  cases hl : loads t with
  | some jr =>
      cases jr with
      | obj e =>
          simp only [hl] at h
          obtain rfl := Option.some.inj h
          exact Or.inl rfl
      | nonObj v => simp [hl] at h
  | none =>
      simp only [hl] at h
      cases hl2 : loads (pyReplace t "\x27" "\"") with
      | some jr =>
          cases jr with
          | obj e =>
              simp only [hl2] at h
              obtain rfl := Option.some.inj h
              exact Or.inr rfl
          | nonObj v => simp [hl2] at h
      | none => simp [hl2] at h

theorem enrich_business_data_get?_ne (env : GEnv) (b : Dict) (k : String)
    (hk : k ∉ sixEnrichmentKeys)
    (hload : ∀ s entries, env.loads s = some (.obj entries) → ∀ kv ∈ entries, kv.1 ≠ k) :
    (enrich_business_data env b).get? k = b.get? k := by
  obtain ⟨setup, duck, gen, loads⟩ := env
  cases setup with
  | error e =>
      simp only [enrich_business_data]
      exact outerDefaults_get?_ne _ _ _ k hk
  | ok u =>
      cases gen with
      | error e =>
          simp only [enrich_business_data]
          exact outerDefaults_get?_ne _ _ _ k hk
      | ok raw =>
          simp only [enrich_business_data]
          cases hd : decodeWithRetry loads (mainJsonText (pyStrip raw)) with
          | some entries =>
              exact mergeEntries_get?_not_mem b entries k (fun kv hkv =>
                (decodeWithRetry_some loads _ entries hd).elim
                  (fun h1 => hload _ entries h1 kv hkv)
                  (fun h2 => hload _ entries h2 kv hkv))
          | none => exact innerDefaults_get?_ne _ _ _ k hk

theorem enrichLeadsLoop_length (call : Nat → Dict → Except Unit Dict) (i : Nat)
    (l : List Dict) : (enrichLeadsLoop call i l).length = l.length := by
  induction l generalizing i with
  | nil => rfl
  | cons x xs ih => simp [enrichLeadsLoop, ih]

theorem enrichLeadsLoop_place_id (envs : Nat → GEnv) (raises : Nat → Bool)
    (hload : ∀ i s entries, (envs i).loads s = some (.obj entries) →
      ∀ kv ∈ entries, kv.1 ≠ "place_id")
    (i : Nat) (l : List Dict) (d : Dict)
    (hd : d ∈ enrichLeadsLoop (mainEnrichCall envs raises) i l) :
    ∃ b ∈ l, d.get? "place_id" = b.get? "place_id" := by
  induction l generalizing i with
  | nil => simp [enrichLeadsLoop] at hd
  | cons x xs ih =>
      rw [enrichLeadsLoop] at hd
      rcases List.mem_cons.mp hd with rfl | hd'
      · refine ⟨x, List.mem_cons_self x xs, ?_⟩
        by_cases hr : raises i
        · simp only [mainEnrichCall, if_pos hr]
          exact leadFallback_get?_ne x "place_id" (by decide)
        · simp only [mainEnrichCall, if_neg hr]
          exact enrich_business_data_get?_ne (envs i) x "place_id" (by decide) (hload i)
      · obtain ⟨b, hb, he⟩ := ih (i + 1) hd'
        exact ⟨b, List.mem_cons_of_mem x hb, he⟩

/-- C2 counterexample: the claim's "every output lead's place_id is the
place_id of some input lead" fails on the code — a decoded enrichment
object containing a `place_id` key overwrites the lead's identity, so the
single output lead carries a place_id ("FAKE") that no input lead has. -/
theorem C2_counterexample :
    ¬ (∀ d ∈ enrich_leads
          (mainEnrichCall
            (fun _ => ⟨.ok (), .ok [], .ok "\x7b\x7d",
              fun t => if t == "\x7b\x7d"
                then some (.obj [("place_id", .str "FAKE")]) else none⟩)
            (fun _ => false))
          [[("place_id", Val.str "p1"), ("name", Val.str "Acme"),
            ("address", Val.str "A")]] 1,
        ∃ b ∈ [[("place_id", Val.str "p1"), ("name", Val.str "Acme"),
            ("address", Val.str "A")]],
          Dict.get? d "place_id" = Dict.get? b "place_id") := by
  intro hAll
  have heq : enrich_leads
      (mainEnrichCall
        (fun _ => ⟨.ok (), .ok [], .ok "\x7b\x7d",
          fun t => if t == "\x7b\x7d"
            then some (.obj [("place_id", .str "FAKE")]) else none⟩)
        (fun _ => false))
      [[("place_id", Val.str "p1"), ("name", Val.str "Acme"),
        ("address", Val.str "A")]] 1 =
      [enrich_business_data
        ⟨.ok (), .ok [], .ok "\x7b\x7d",
          fun t => if t == "\x7b\x7d"
            then some (.obj [("place_id", .str "FAKE")]) else none⟩
        [("place_id", Val.str "p1"), ("name", Val.str "Acme"),
         ("address", Val.str "A")]] := rfl
  obtain ⟨b, hb, he⟩ := hAll _ (by rw [heq]; exact List.mem_singleton.mpr rfl)
  rw [List.mem_singleton] at hb
  subst hb
  have h1 : (enrich_business_data
      ⟨.ok (), .ok [], .ok "\x7b\x7d",
        fun t => if t == "\x7b\x7d"
          then some (.obj [("place_id", .str "FAKE")]) else none⟩
      [("place_id", Val.str "p1"), ("name", Val.str "Acme"),
       ("address", Val.str "A")]).get? "place_id" = some (.str "FAKE") := rfl
  have h2 : Dict.get? [("place_id", Val.str "p1"), ("name", Val.str "Acme"),
      ("address", Val.str "A")] "place_id" = some (.str "p1") := rfl
  rw [h1, h2] at he
  injection he with h3
  injection h3 with h4
  exact absurd h4 (by decide)

/-- C2 (amended): the orchestrator returns exactly
`min(len(leads), max_leads)` leads for every call oracle, and each output
lead's place_id is the place_id of some input lead provided no decoded
enrichment object carries a `place_id` key (true in particular for every
enumerated failure mode, where nothing is decoded at all). -/
theorem C2_orchestrator :
    (∀ (call : Nat → Dict → Except Unit Dict) (leads : List Dict) (max_leads : Nat),
      (enrich_leads call leads max_leads).length = min leads.length max_leads) ∧
    (∀ (envs : Nat → GEnv) (raises : Nat → Bool) (leads : List Dict) (max_leads : Nat),
      (∀ i s entries, (envs i).loads s = some (.obj entries) →
        ∀ kv ∈ entries, kv.1 ≠ "place_id") →
      ∀ d ∈ enrich_leads (mainEnrichCall envs raises) leads max_leads,
        ∃ b ∈ leads, d.get? "place_id" = b.get? "place_id") := by
  constructor
  · intro call leads max_leads
    rw [enrich_leads, enrichLeadsLoop_length, selectTopLeads, List.length_take,
      length_stableSortDesc, Nat.min_comm]
  · intro envs raises leads max_leads hload d hd
    obtain ⟨b, hb, he⟩ := enrichLeadsLoop_place_id envs raises hload 0 _ d hd
    refine ⟨b, ?_, he⟩
    exact (mem_stableSortDesc scoreKey leads b).mp (List.mem_of_mem_take hb)

/-- Witness for C2 at a concrete lead list and failing environment. -/
theorem C2_orchestrator_witness :
    (enrich_leads (mainEnrichCall (fun _ => ⟨.ok (), .ok [], .error (), fun _ => none⟩)
        (fun _ => false))
      [[("place_id", Val.str "p1"), ("lead_score", Val.num 80)]] 1).length = min 1 1 ∧
    ∀ d ∈ enrich_leads (mainEnrichCall (fun _ => ⟨.ok (), .ok [], .error (), fun _ => none⟩)
        (fun _ => false))
      [[("place_id", Val.str "p1"), ("lead_score", Val.num 80)]] 1,
      ∃ b ∈ [[("place_id", Val.str "p1"), ("lead_score", Val.num 80)]],
        Dict.get? d "place_id" = Dict.get? b "place_id" := by
  refine ⟨C2_orchestrator.1 _ _ _, C2_orchestrator.2 _ _ _ _ ?_⟩
  intro i s entries h
  exact absurd h (by simp)

/-- The response-parsing procedure exactly as claim C6 words it: locate the
JSON object substring from the first brace to the last, decode it, and
substitute "Parse Error" for every expected field whose key is absent from
the decoded object or whose decode fails entirely.  This is a claim-side
definition written from the spec's words, for comparison with the code. -/
def claimedParse (loads : String → Option Jres) (text : String) : Dict :=
  match jsonSlice text with
  | some json_str =>
      match loads json_str with
      | some (.obj parsed) =>
          [("enriched_website", (Dict.get? parsed "enriched_website").getD (.str "Parse Error")),
           ("linkedin_url", (Dict.get? parsed "linkedin_url").getD (.str "Parse Error")),
           ("key_contacts", (Dict.get? parsed "key_contacts").getD (.str "Parse Error")),
           ("description", (Dict.get? parsed "description").getD (.str "Parse Error"))]
      | _ =>
          [("enriched_website", .str "Parse Error"), ("linkedin_url", .str "Parse Error"),
           ("key_contacts", .str "Parse Error"), ("description", .str "Parse Error")]
  | none =>
      [("enriched_website", .str "Parse Error"), ("linkedin_url", .str "Parse Error"),
       ("key_contacts", .str "Parse Error"), ("description", .str "Parse Error")]

/-- C6 counterexample.  Two divergences from the claim: (i) in the gem
variant a full decode failure does NOT substitute "Parse Error" into every
field — `linkedin_url` keeps its "N/A" default; (ii) the main client does
not locate the JSON block by first/last brace at all — on a response whose
braced substring decodes fine, it still falls to its contextual defaults,
because it only strips markdown fences and feeds the whole text to the
decoder. -/
theorem C6_counterexample :
    ((enrich_lead_data_with_gemini
        ⟨.ok ⟨true, "\x7bnot json\x7d", none⟩, fun _ => none⟩
        [("name", .str "Acme"), ("address", .str "1 Main St")]).get? "linkedin_url" =
      some (.str "N/A")) ∧
    ((claimedParse (fun _ => none) "\x7bnot json\x7d").get? "linkedin_url" =
      some (.str "Parse Error")) ∧
    (Val.str "N/A" ≠ .str "Parse Error") ∧
    jsonSlice "note: \x7b\"description\": \"D\"\x7d" =
      some "\x7b\"description\": \"D\"\x7d" ∧
    (enrich_business_data
        ⟨.ok (), .ok [], .ok "note: \x7b\"description\": \"D\"\x7d",
          fun t => if t == "\x7b\"description\": \"D\"\x7d"
            then some (.obj [("description", .str "D")]) else none⟩
        [("name", .str "Acme"), ("address", .str "1 Main St")]).get? "description" =
      some (.str "Acme is a  business located in .") := by
  refine ⟨rfl, rfl, ?_, rfl, rfl⟩
  intro h
  injection h with h'
  exact absurd h' (by decide)

/-- C6 (amended): the first-brace/last-brace JSON extraction with key
validation is the gem variant's behavior, with two precisions: an expected
field absent from the decoded object defaults to "Parse Error" except
`key_contacts`, which is coerced to a list (`[]` when absent or not a
list); and a full decode failure leaves the other fields at their "N/A"
defaults, setting only `description` to "JSON Parse Error".  (The main
client parses by markdown-fence splitting with no key validation — see the
counterexample.) -/
theorem C6_parse_validation (env : GemEnv) (lead_data : Dict)
    (response : GemResponse) (json_str : String)
    (hname : truthy (lead_data.get? "name") = true)
    (haddr : truthy (lead_data.get? "address") = true)
    (hgen : env.gen = .ok response) (hp : response.parts = true)
    (hslice : jsonSlice response.text = some json_str) :
    (∀ entries, env.loads json_str = some (.obj entries) →
      enrich_lead_data_with_gemini env lead_data = gemApplyParsed gemDefaultInfo entries ∧
      (enrich_lead_data_with_gemini env lead_data).get? "linkedin_url" =
        some ((Dict.get? entries "linkedin_url").getD (.str "Parse Error")) ∧
      (enrich_lead_data_with_gemini env lead_data).get? "description" =
        some ((Dict.get? entries "description").getD (.str "Parse Error"))) ∧
    (env.loads json_str = none →
      enrich_lead_data_with_gemini env lead_data =
        gemDefaultInfo.set "description" (.str "JSON Parse Error")) := by
  obtain ⟨gen, loads⟩ := env
  dsimp only at hgen hslice ⊢
  subst hgen
  have hcond : (!truthy (lead_data.get? "name") || !truthy (lead_data.get? "address")) = false := by
    rw [hname, haddr]; rfl
  have hbase : ∀ r : Option Jres, r = loads json_str →
      enrich_lead_data_with_gemini ⟨.ok response, loads⟩ lead_data =
        (match r with
         | some (.obj parsed_json) => gemApplyParsed gemDefaultInfo parsed_json
         | some (.nonObj _) => gemDefaultInfo.set "description" (.str "General Parse Error")
         | none => gemDefaultInfo.set "description" (.str "JSON Parse Error")) := by
    intro r hr
    rw [enrich_lead_data_with_gemini]
    rw [if_neg (by simp [hcond])]
    dsimp only
    rw [if_pos hp, hslice, hr]
  constructor
  · intro entries hobj
    have h1 := hbase (some (.obj entries)) hobj.symm
    refine ⟨h1, ?_, ?_⟩
    · rw [h1]
      simp only [gemApplyParsed]
      rw [Dict.get?_set_ne _ _ _ _ (by decide), Dict.get?_set_ne _ _ _ _ (by decide),
        Dict.get?_set_self]
    · rw [h1]
      simp only [gemApplyParsed]
      rw [Dict.get?_set_self]
  · intro hnone
    exact hbase none hnone.symm

/-- Witness for C6 at a concrete response and decode table. -/
theorem C6_parse_validation_witness :
    truthy (Dict.get? [("name", Val.str "A"), ("address", Val.str "B")] "name") = true ∧
    jsonSlice "\x7b\x7d" = some "\x7b\x7d" ∧
    enrich_lead_data_with_gemini
        ⟨.ok ⟨true, "\x7b\x7d", none⟩,
          fun t => if t == "\x7b\x7d"
            then some (.obj [("description", Val.str "D")]) else none⟩
        [("name", Val.str "A"), ("address", Val.str "B")] =
      gemApplyParsed gemDefaultInfo [("description", Val.str "D")] := by
  refine ⟨rfl, rfl, ?_⟩
  exact ((C6_parse_validation
      ⟨.ok ⟨true, "\x7b\x7d", none⟩,
        fun t => if t == "\x7b\x7d"
          then some (.obj [("description", Val.str "D")]) else none⟩
      [("name", Val.str "A"), ("address", Val.str "B")]
      ⟨true, "\x7b\x7d", none⟩ "\x7b\x7d" rfl rfl rfl rfl rfl).1
    [("description", Val.str "D")] rfl).1

end Claims
